import Mathlib

/-!
Verification of the tsv-enst repository's time-windowed aggregation and
metric-derivation engine (ENST = energy-normalized system throughput).

Shallow embedding conventions:
* JavaScript numbers are modelled as exact rationals (`ℚ`); nullable /
  possibly-absent fields are `Option ℚ`. JS `null` and `undefined` are
  conflated into `none` (every code path embedded here treats them alike,
  or the difference is unobservable in the embedded fragment).
* A JS value that may be an unparseable (non-empty, non-numeric) string is
  modelled by `JSVal`; `Number(·)` coercion of such a string is `JSNum.nan`.
  Numeric strings behave as their numeric value in every embedded code path
  and are modelled as numbers directly.
* JS `Map` (insertion-ordered) is modelled as an association list to which
  new keys are appended at the end; the string key `` `${siteId}:${windowStart}` ``
  is an injective encoding of the pair `(siteId, windowStart)` and is
  modelled as that pair.
* JS `Array.prototype.sort` (stable since ES2019) with comparator
  `(a, b) => a.ts - b.ts` is modelled by `List.insertionSort` on the
  timestamp, which is likewise stable.
-/

namespace TsvEnst

/-- Model of a JS number that may be NaN. Arithmetic propagates NaN the way
JS does; `Math.min`/`Math.max` return NaN when an argument is NaN. -/
inductive JSNum where
  | num (q : ℚ)
  | nan
deriving DecidableEq

namespace JSNum

def add : JSNum → JSNum → JSNum
  | num a, num b => num (a + b)
  | _, _ => nan

def mul : JSNum → JSNum → JSNum
  | num a, num b => num (a * b)
  | _, _ => nan

/-- Division of a JS number by a list length. The `n = 0` case never occurs
in the embedded code (every division by a length is guarded by a
nonemptiness check), so its value is irrelevant. -/
def divNat (x : JSNum) (n : ℕ) : JSNum :=
  match x with
  | num a => if n = 0 then nan else num (a / (n : ℚ))
  | nan => nan

def jsMax : JSNum → JSNum → JSNum
  | num a, num b => num (max a b)
  | _, _ => nan

def jsMin : JSNum → JSNum → JSNum
  | num a, num b => num (min a b)
  | _, _ => nan

/-- Model of `Math.min(1, Math.max(0, x))` from `UsageAggregator.emit`. -/
def clamp01 (x : JSNum) : JSNum := jsMin (num 1) (jsMax (num 0) x)

def isNum : JSNum → Bool
  | num _ => true
  | nan => false

end JSNum

/-- Model of a loosely-typed JSON field value that is either a number or an
unparseable (non-empty, non-numeric) string. -/
inductive JSVal where
  | num (q : ℚ)
  | str
deriving DecidableEq

/-- Model of coercing a `JSVal` with JS `Number(·)`: an unparseable string
becomes NaN. -/
def JSVal.toNum : JSVal → JSNum
  | .num q => .num q
  | .str => .nan

/-- JS truthiness of a `JSVal`: the number 0 is falsy, a non-empty string is
truthy. -/
def JSVal.truthy : JSVal → Bool
  | .num q => q != 0
  | .str => true

/-- Model of the JS `a || d` idiom on a possibly-absent numeric field: both
`null`/`undefined` and `0` fall through to the default. -/
def jsOrQ (a : Option ℚ) (d : ℚ) : ℚ :=
  match a with
  | some x => if x = 0 then d else x
  | none => d

/-! ## src/cost/index.js : cost computation -/

/-- Joules per MWh conversion factor (src/cost/index.js). -/
def JOULES_PER_MWH : ℚ := 3600000000

/-- Default electricity price in USD per MWh (src/cost/index.js). -/
def DEFAULT_PRICE_USD_PER_MWH : ℚ := 50

/-- Reference work units for delta cost calculation (src/cost/index.js). -/
def REFERENCE_WORK_UNITS : ℚ := 1000000000

/-- `computeCostUsd(energyJ, priceUsdPerMwh)` from src/cost/index.js:
returns 0 for null/undefined or non-positive energy, otherwise
`energyJ / 3.6e9 * price`. -/
def computeCostUsd (energyJ : Option ℚ) (priceUsdPerMwh : ℚ) : ℚ :=
  match energyJ with
  | none => 0
  | some e => if e ≤ 0 then 0 else e / JOULES_PER_MWH * priceUsdPerMwh

/-- `computeEnergyForWork(workUnits, enst)` from src/cost/index.js. The JS
function returns the number `Infinity` when `enst` is null/undefined or
non-positive; `none` models that Infinity result, `some e` a finite one. -/
def computeEnergyForWork (workUnits : ℚ) (enst : Option ℚ) : Option ℚ :=
  match enst with
  | none => none
  | some e => if e ≤ 0 then none else some (workUnits / e)

/-- `computeCostForWork(workUnits, enst, priceUsdPerMwh)` from
src/cost/index.js: an infinite (`none`) energy short-circuits to an infinite
(`none`) cost via the `!isFinite(energyJ)` guard. -/
def computeCostForWork (workUnits : ℚ) (enst : Option ℚ) (priceUsdPerMwh : ℚ) : Option ℚ :=
  match computeEnergyForWork workUnits enst with
  | none => none
  | some e => some (computeCostUsd (some e) priceUsdPerMwh)

/-- `computeDeltaCostPerWork(enstBaseline, enstPolicy, priceUsdPerMwh,
referenceWorkUnits)` from src/cost/index.js: `none` models the JS `null`
returned when either side's cost is not finite. -/
def computeDeltaCostPerWork (enstBaseline enstPolicy : Option ℚ) (priceUsdPerMwh : ℚ)
    (referenceWorkUnits : ℚ) : Option ℚ :=
  match computeCostForWork referenceWorkUnits enstBaseline priceUsdPerMwh,
        computeCostForWork referenceWorkUnits enstPolicy priceUsdPerMwh with
  | some costBaseline, some costPolicy => some (costPolicy - costBaseline)
  | _, _ => none

/-! ## src/enst_compute/index.js : work units, ENST, stream -/

/-- The `work_units_mode` tag reported by the work-unit engine. -/
inductive Mode where
  | infra
  | domain
  | infra_fallback
deriving DecidableEq

/-- The caller-selected work-units mode (the `workUnitsMode` option); any
string other than 'domain' selects infra mode in the JS code. -/
inductive ReqMode where
  | infra
  | domain
deriving DecidableEq

/-- Canonical TSV record: the loosely-typed per-window record flowing
through the ENST/cost/policy pipeline, with only the fields the embedded
code paths read or write. -/
structure TSV where
  energy_j : Option ℚ
  work_units : Option ℚ
  cpu_util : Option ℚ
  gpu_util : Option ℚ
  cpu_core_seconds : Option ℚ
  gpu_seconds : Option ℚ
  window_duration_s : Option ℚ
  validated_steps : Option ℚ
  timesteps : Option ℚ
  validated_work_units : Option ℚ
  power_w : Option ℚ
  thermal_headroom_w : Option ℚ
  grid_stress_index : Option ℚ
  work_units_mode : Option Mode
  enst : Option ℚ
  policyThrottled : Bool
  throttleFactorMeta : Option ℚ
  migrateFlagMeta : Bool
deriving DecidableEq

/-- A TSV record with every field absent (all-null record). -/
def TSV.empty : TSV :=
  ⟨none, none, none, none, none, none, none, none, none, none, none, none, none,
   none, none, false, none, false⟩

/-- `computeWorkUnitsInfra(tsv, gpuWeight)` from src/enst_compute/index.js:
`cpu_core_seconds ?? ((cpu_util || 0) * (window_duration_s || 300) * 100)`
plus `gpu_seconds ?? ((gpu_util || 0) * (window_duration_s || 300) * 8)`
weighted by `gpuWeight`. -/
def computeWorkUnitsInfra (tsv : TSV) (gpuWeight : ℚ) : ℚ :=
  let cpuCoreSeconds := tsv.cpu_core_seconds.getD
    (jsOrQ tsv.cpu_util 0 * jsOrQ tsv.window_duration_s 300 * 100)
  let gpuSeconds := tsv.gpu_seconds.getD
    (jsOrQ tsv.gpu_util 0 * jsOrQ tsv.window_duration_s 300 * 8)
  cpuCoreSeconds + gpuSeconds * gpuWeight

/-- `computeWorkUnitsDomain(tsv)` from src/enst_compute/index.js: prefer
`validated_steps`, else `timesteps` (both reported as mode 'domain'), else
fall back to `computeWorkUnitsInfra` with the default gpuWeight 1 and report
mode 'infra_fallback'. -/
def computeWorkUnitsDomain (tsv : TSV) : ℚ × Mode :=
  match tsv.validated_steps with
  | some v => (v, Mode.domain)
  | none =>
    match tsv.timesteps with
    | some t => (t, Mode.domain)
    | none => (computeWorkUnitsInfra tsv 1, Mode.infra_fallback)

/-- `computeWorkUnits(tsv, mode, gpuWeight)` from src/enst_compute/index.js. -/
def computeWorkUnits (tsv : TSV) (mode : ReqMode) (gpuWeight : ℚ) : ℚ × Mode :=
  match mode with
  | ReqMode.domain => computeWorkUnitsDomain tsv
  | ReqMode.infra => (computeWorkUnitsInfra tsv gpuWeight, Mode.infra)

/-- `computeEnst(tsv)` from src/enst_compute/index.js: null when energy is
null/undefined or non-positive, null when work_units is null/undefined,
otherwise `work / energy`. -/
def computeEnst (tsv : TSV) : Option ℚ :=
  match tsv.energy_j with
  | none => none
  | some energy =>
    if energy ≤ 0 then none
    else
      match tsv.work_units with
      | none => none
      | some work => some (work / energy)

/-- Per-record body of the `computeEnstStream` loop from
src/enst_compute/index.js: copy the record, set `work_units` and
`work_units_mode` from `computeWorkUnits`, backfill a null/undefined
`validated_work_units` with the computed work units, then compute `enst`. -/
def processEnstRecord (mode : ReqMode) (gpuWeight : ℚ) (tsv : TSV) : TSV :=
  let wu := computeWorkUnits tsv mode gpuWeight
  let record := { tsv with work_units := some wu.1, work_units_mode := some wu.2 }
  let record :=
    if record.validated_work_units = none then
      { record with validated_work_units := some wu.1 }
    else record
  { record with enst := computeEnst record }

/-- `computeEnstStream(tsvRecords, options)` from src/enst_compute/index.js,
as a function on finite record lists (the async generator yields exactly one
processed record per input record, in order). -/
def computeEnstStream (mode : ReqMode) (gpuWeight : ℚ) (records : List TSV) : List TSV :=
  records.map (processEnstRecord mode gpuWeight)

/-! ## src/cost/index.js (policy part) : evaluatePolicy, applyThrottle -/

/-- Violation types recorded by `evaluatePolicy`. -/
inductive VType where
  | energy_cap
  | thermal_cap
  | grid_stress
deriving DecidableEq

/-- One entry of the `violations` array built by `evaluatePolicy`. -/
structure Violation where
  vtype : VType
  actual : ℚ
  cap : ℚ
deriving DecidableEq

/-- The policy-evaluation result object of `evaluatePolicy`. -/
structure EvalResult where
  throttle_applied : Bool
  throttle_factor : ℚ
  migrate_flag : Bool
  violations : List Violation
deriving DecidableEq

/-- Policy configuration: absent caps are never evaluated. -/
structure Policy where
  energy_cap_w : Option ℚ
  thermal_cap_w : Option ℚ
  grid_stress_cap : Option ℚ
  throttle_factor : ℚ
deriving DecidableEq

/-- `evaluatePolicy(record, policy)` from src/cost/index.js: the three cap
checks run in order (energy, thermal, grid stress), each appending its
violation; the throttle factor is the running minimum; the grid-stress check
sets the migrate flag without throttling. -/
def evaluatePolicy (record : TSV) (policy : Policy) : EvalResult :=
  let result : EvalResult := ⟨false, 1, false, []⟩
  let result :=
    match policy.energy_cap_w, record.power_w with
    | some cap, some pw =>
      if pw > cap then
        ⟨true, min result.throttle_factor policy.throttle_factor, result.migrate_flag,
         result.violations ++ [⟨VType.energy_cap, pw, cap⟩]⟩
      else result
    | _, _ => result
  let result :=
    match policy.thermal_cap_w, record.thermal_headroom_w with
    | some cap, some th =>
      if th < cap then
        ⟨true, min result.throttle_factor policy.throttle_factor, result.migrate_flag,
         result.violations ++ [⟨VType.thermal_cap, th, cap⟩]⟩
      else result
    | _, _ => result
  let result :=
    match policy.grid_stress_cap, record.grid_stress_index with
    | some cap, some g =>
      if g > cap then
        ⟨result.throttle_applied, result.throttle_factor, true,
         result.violations ++ [⟨VType.grid_stress, g, cap⟩]⟩
      else result
    | _, _ => result
  result

/-- `applyThrottle(record, evalResult)` from src/cost/index.js: an
unthrottled record is returned as an unmodified copy; otherwise work_units,
validated_work_units, cpu_core_seconds and gpu_seconds are scaled by the
factor, energy_j by `0.5 + factor * 0.5`, enst is recomputed when the new
energy is positive and work is present, and the policy metadata fields are
attached. -/
def applyThrottle (record : TSV) (evalResult : EvalResult) : TSV :=
  if !evalResult.throttle_applied then record
  else
    let factor := evalResult.throttle_factor
    let t := record
    let t :=
      match t.work_units with
      | some w => { t with work_units := some (w * factor) }
      | none => t
    let t :=
      match t.validated_work_units with
      | some v => { t with validated_work_units := some (v * factor) }
      | none => t
    let t :=
      match t.cpu_core_seconds with
      | some c => { t with cpu_core_seconds := some (c * factor) }
      | none => t
    let t :=
      match t.gpu_seconds with
      | some g => { t with gpu_seconds := some (g * factor) }
      | none => t
    let t :=
      match t.energy_j with
      | some e => { t with energy_j := some (e * (1/2 + factor * (1/2))) }
      | none => t
    let t :=
      match t.energy_j, t.work_units with
      | some e, some w => if e > 0 then { t with enst := some (w / e) } else t
      | _, _ => t
    { t with policyThrottled := true, throttleFactorMeta := some factor,
             migrateFlagMeta := evalResult.migrate_flag }

/-! ## Generic window bucketing (the JS `Map`-keyed aggregator skeleton)

Both `PowerAggregator` and `UsageAggregator` keep a `Map` from window key to
window state: `addRecord` updates the existing entry in place or appends a
new one (JS `Map` preserves insertion order), and `emit` walks the entries
in order. The state is modelled as an association list. -/

section Bucket

variable {R K W O : Type} [DecidableEq K]

/-- One `addRecord` call: update the entry with this record's key in place,
or append a freshly initialized window at the end. -/
def addRec (κ : R → K) (init : K → W) (upd : W → R → W) (r : R) :
    List (K × W) → List (K × W)
  | [] => [(κ r, upd (init (κ r)) r)]
  | (k, w) :: rest =>
    if k = κ r then (k, upd w r) :: rest else (k, w) :: addRec κ init upd r rest

/-- Feeding a whole record list to a fresh aggregator. -/
def build (κ : R → K) (init : K → W) (upd : W → R → W) (l : List R) : List (K × W) :=
  l.foldl (fun s r => addRec κ init upd r s) []

/-- The `emit()` generator: one output record per stored window, in map
order. -/
def emitAll (out : K × W → O) (s : List (K × W)) : List O := s.map out

/-- The window state that key `k` ends up with after the whole input list:
its initial state folded over exactly the records whose key is `k`, in
arrival order. -/
def windowFold (κ : R → K) (init : K → W) (upd : W → R → W) (k : K) (l : List R) : W :=
  (l.filter fun r => κ r = k).foldl upd (init k)

end Bucket

/-! ## src/enst_compute/index.js : PowerAggregator -/

/-- Raw input record for `PowerAggregator.addPowerRecord`, with all the
legacy field aliases the code probes. Power-bearing fields may hold
unparseable strings (dropped by the `isNaN` guard). -/
structure PowerRec where
  ts : Option ℚ
  timestamp : Option ℚ
  time : Option ℚ
  t : Option ℚ
  site_id : Option String
  machine_id : Option String
  node_id : Option String
  power_w : Option JSVal
  power : Option JSVal
  watts : Option JSVal
  watt : Option JSVal
  power_watts : Option JSVal
  pdu_power : Option JSVal
deriving DecidableEq

/-- A power record with every field absent. -/
def PowerRec.empty : PowerRec :=
  ⟨none, none, none, none, none, none, none, none, none, none, none, none, none⟩

/-- The `record.ts ?? record.timestamp ?? record.time ?? record.t ?? 0`
alias chain. -/
def PowerRec.rawTs (r : PowerRec) : ℚ :=
  (r.ts <|> r.timestamp <|> r.time <|> r.t).getD 0

/-- The `record.site_id ?? record.machine_id ?? record.node_id ?? 'unknown'`
alias chain. -/
def PowerRec.site (r : PowerRec) : String :=
  (r.site_id <|> r.machine_id <|> r.node_id).getD "unknown"

/-- The power alias chain followed by the
`powerW !== null && !isNaN(powerW)` guard: `some p` when a usable numeric
power was found, `none` when the value is absent or unparseable. -/
def PowerRec.powerVal (r : PowerRec) : Option ℚ :=
  match r.power_w <|> r.power <|> r.watts <|> r.watt <|> r.power_watts <|> r.pdu_power with
  | some (JSVal.num q) => some q
  | some JSVal.str => none
  | none => none

/-- `PowerAggregator.normalizeTimestamp(ts)`: the magnitude heuristic.
Values below 1e10 are taken as seconds, below 1e13 as milliseconds,
otherwise as microseconds. -/
def normalizeTimestamp (ts : ℚ) : ℚ :=
  if ts < 10000000000 then ts * 1000000
  else if ts < 10000000000000 then ts * 1000
  else ts

/-- `Math.floor(ts / windowSizeUs) * windowSizeUs`, the shared window-start
computation of `getWindowKey`. -/
def windowStart (windowSizeUs ts : ℚ) : ℚ :=
  ((⌊ts / windowSizeUs⌋ : ℤ) : ℚ) * windowSizeUs

/-- The normalized timestamp `addPowerRecord` works with. -/
def PowerRec.normTs (r : PowerRec) : ℚ := normalizeTimestamp r.rawTs

/-- `PowerAggregator.getWindowKey` applied to the normalized timestamp:
the (site, window start) pair encoded by the JS string key. -/
def powerKey (windowSizeUs : ℚ) (r : PowerRec) : String × ℚ :=
  (r.site, windowStart windowSizeUs r.normTs)

/-- Per-window state of the `PowerAggregator`. -/
structure PowerWindow where
  ts_start : ℚ
  ts_end : ℚ
  site_id : String
  power_samples : List (ℚ × ℚ)
  last_ts : ℚ
deriving DecidableEq

/-- Window creation on first touch in `addPowerRecord`. -/
def powerInit (windowSizeUs : ℚ) (k : String × ℚ) : PowerWindow :=
  ⟨k.2, k.2 + windowSizeUs, k.1, [], k.2⟩

/-- The sample `addPowerRecord` pushes for a record, when its power value
survives the null/NaN guard: `(normalized ts, power)`. -/
def PowerRec.sampleOf (r : PowerRec) : Option (ℚ × ℚ) :=
  r.powerVal.map fun p => (r.normTs, p)

/-- The per-window mutation done by one `addPowerRecord` call. -/
def powerUpd (w : PowerWindow) (r : PowerRec) : PowerWindow :=
  match r.powerVal with
  | some p =>
    { w with power_samples := w.power_samples ++ [(r.normTs, p)],
             last_ts := max w.last_ts r.normTs }
  | none => w

/-- Stable sort of power samples by timestamp, modelling the JS
`samples.sort((a, b) => a.ts - b.ts)` in `computeEnergy`. -/
def sortByTs (samples : List (ℚ × ℚ)) : List (ℚ × ℚ) :=
  samples.insertionSort fun a b => a.1 ≤ b.1

/-- The trapezoid accumulation loop of `computeEnergy`, over an
already-sorted sample list: for each i ≥ 1 add
`avg(p[i-1], p[i]) * (ts[i] - ts[i-1]) / 1e6`. -/
def trapLoop (sorted : List (ℚ × ℚ)) : ℚ :=
  (sorted.zip sorted.tail).foldl
    (fun acc ab => acc + (ab.2.2 + ab.1.2) / 2 * ((ab.2.1 - ab.1.1) / 1000000)) 0

/-- `PowerAggregator.computeEnergy(samples)`: 0 for an empty window, a
constant-power assumption over the whole window for a single sample,
trapezoidal integration over the time-sorted samples otherwise. -/
def computeEnergy (windowSizeUs : ℚ) (samples : List (ℚ × ℚ)) : ℚ :=
  if samples.length < 2 then
    if samples.length = 1 then
      ((samples.headD (0, 0)).2) * (windowSizeUs / 1000000)
    else 0
  else trapLoop (sortByTs samples)

/-- The normalized power record yielded by `PowerAggregator.emit()` for one
window. -/
structure PowerOut where
  ts : ℚ
  ts_start : ℚ
  ts_end : ℚ
  site_id : String
  power_w : ℚ
  energy_j_window : ℚ
  sample_count : ℕ
deriving DecidableEq

/-- The per-window body of `PowerAggregator.emit()`: mean power (0 when the
window has no samples), energy via `computeEnergy`, sample count. -/
def powerOut (windowSizeUs : ℚ) (e : (String × ℚ) × PowerWindow) : PowerOut :=
  let w := e.2
  let meanPower :=
    if 0 < w.power_samples.length then
      (w.power_samples.foldl (fun sum s => sum + s.2) 0) / (w.power_samples.length : ℚ)
    else 0
  ⟨w.ts_start, w.ts_start, w.ts_end, w.site_id, meanPower,
   computeEnergy windowSizeUs w.power_samples, w.power_samples.length⟩

/-- A fresh `PowerAggregator` fed a whole record list. -/
def powerBuild (windowSizeUs : ℚ) (l : List PowerRec) : List ((String × ℚ) × PowerWindow) :=
  build (powerKey windowSizeUs) (powerInit windowSizeUs) powerUpd l

/-- `PowerAggregator.emit()` output after ingesting `l`. -/
def powerEmit (windowSizeUs : ℚ) (l : List PowerRec) : List PowerOut :=
  emitAll (powerOut windowSizeUs) (powerBuild windowSizeUs l)

/-! ## src/enst_compute/index.js : UsageAggregator -/

/-- The nested `average_usage` object of Google-format usage records. -/
structure AvgUsage where
  cpus : Option JSVal
  memory : Option JSVal
deriving DecidableEq

/-- Raw input record for `UsageAggregator.addUsageRecord`. Utilization
fields may hold unparseable strings; `addUsageRecord` pushes `Number(v)` of
them without any NaN guard. -/
structure UsageRec where
  start_time : Option ℚ
  time : Option ℚ
  ts : Option ℚ
  end_time : Option ℚ
  machine_id : Option String
  site_id : Option String
  average_usage : Option AvgUsage
  cpu_util : Option JSVal
  assigned_memory : Option JSVal
  mem_util : Option JSVal
  gpu_util : Option JSVal
  hasType : Bool
  hasEventType : Bool
deriving DecidableEq

/-- A usage record with every field absent. -/
def UsageRec.empty : UsageRec :=
  ⟨none, none, none, none, none, none, none, none, none, none, none, false, false⟩

/-- The `record.start_time || record.time || record.ts || 0` chain (`||`:
zero timestamps fall through to the next alias). Note: no unit
normalization is applied to this timestamp anywhere in
`UsageAggregator.addUsageRecord`. -/
def UsageRec.rawTs (r : UsageRec) : ℚ :=
  jsOrQ r.start_time (jsOrQ r.time (jsOrQ r.ts 0))

/-- The `record.machine_id || record.site_id || 'unknown'` chain (site ids
are modelled as non-empty strings, so `||` behaves as `??`). -/
def UsageRec.site (r : UsageRec) : String :=
  (r.machine_id <|> r.site_id).getD "unknown"

/-- The `record.average_usage?.cpus ?? record.cpu_util ??
record.assigned_memory ?? null` chain. -/
def UsageRec.cpuExtract (r : UsageRec) : Option JSVal :=
  (r.average_usage.bind AvgUsage.cpus) <|> r.cpu_util <|> r.assigned_memory

/-- The `record.average_usage?.memory ?? record.mem_util ?? null` chain. -/
def UsageRec.memExtract (r : UsageRec) : Option JSVal :=
  (r.average_usage.bind AvgUsage.memory) <|> r.mem_util

/-- The `record.gpu_util ?? null` extraction. -/
def UsageRec.gpuExtract (r : UsageRec) : Option JSVal := r.gpu_util

/-- `UsageAggregator.getWindowKey` applied to the raw (un-normalized)
timestamp, as `addUsageRecord` does. -/
def usageKey (windowSizeUs : ℚ) (r : UsageRec) : String × ℚ :=
  (r.site, windowStart windowSizeUs r.rawTs)

/-- Per-window state of the `UsageAggregator`. -/
structure UsageWindow where
  ts_start : ℚ
  ts_end : ℚ
  site_id : String
  cpu_samples : List JSNum
  gpu_samples : List JSNum
  mem_samples : List JSNum
  job_count : ℕ
  resource_seconds : JSNum
deriving DecidableEq

/-- Window creation on first touch in `addUsageRecord`. -/
def usageInit (windowSizeUs : ℚ) (k : String × ℚ) : UsageWindow :=
  ⟨k.2, k.2 + windowSizeUs, k.1, [], [], [], 0, JSNum.num 0⟩

/-- The `(record.end_time || ts + 1_000_000) - ts` duration in seconds used
for the resource-seconds accumulation. -/
def UsageRec.durationSec (r : UsageRec) : ℚ :=
  (jsOrQ r.end_time (r.rawTs + 1000000) - r.rawTs) / 1000000

/-- The `(cpuUtil || 0)` coercion in the resource-seconds accumulation:
the raw extracted value's truthiness decides (so an unparseable string is
kept and multiplies to NaN, while a 0 or absent value contributes 0). -/
def UsageRec.cpuForResource (r : UsageRec) : JSNum :=
  match r.cpuExtract with
  | some v => if v.truthy then v.toNum else JSNum.num 0
  | none => JSNum.num 0

/-- The resource-seconds contribution of one record:
`(cpuUtil || 0) * durationSec`. -/
def UsageRec.resourceContrib (r : UsageRec) : JSNum :=
  JSNum.mul r.cpuForResource (JSNum.num r.durationSec)

/-- The per-window mutation done by one `addUsageRecord` call: push
`Number(v)` of each present utilization field (no NaN guard), bump the job
count when a type/event_type field is present, accumulate resource
seconds. -/
def usageUpd (w : UsageWindow) (r : UsageRec) : UsageWindow :=
  let w :=
    match r.cpuExtract with
    | some v => { w with cpu_samples := w.cpu_samples ++ [v.toNum] }
    | none => w
  let w :=
    match r.memExtract with
    | some v => { w with mem_samples := w.mem_samples ++ [v.toNum] }
    | none => w
  let w :=
    match r.gpuExtract with
    | some v => { w with gpu_samples := w.gpu_samples ++ [v.toNum] }
    | none => w
  let w :=
    if r.hasType || r.hasEventType then { w with job_count := w.job_count + 1 } else w
  { w with resource_seconds := JSNum.add w.resource_seconds r.resourceContrib }

/-- The `reduce((a, b) => a + b, 0) / length` mean over a JS sample list. -/
def meanJS (l : List JSNum) : JSNum :=
  (l.foldl JSNum.add (JSNum.num 0)).divNat l.length

/-- The normalized usage record yielded by `UsageAggregator.emit()` for one
window. -/
structure UsageOut where
  ts : ℚ
  ts_start : ℚ
  ts_end : ℚ
  site_id : String
  cpu_util : JSNum
  gpu_util : Option JSNum
  mem_util : Option JSNum
  job_queue_depth : ℕ
  resource_seconds_window : JSNum
deriving DecidableEq

/-- The per-window body of `UsageAggregator.emit()`: means of the sample
lists (cpu defaults to 0, gpu/mem to null when empty), clamped to [0,1] by
`Math.min(1, Math.max(0, ·))`. -/
def usageOut (e : (String × ℚ) × UsageWindow) : UsageOut :=
  let w := e.2
  let cpuUtil := if 0 < w.cpu_samples.length then meanJS w.cpu_samples else JSNum.num 0
  let gpuUtil := if 0 < w.gpu_samples.length then some (meanJS w.gpu_samples) else none
  let memUtil := if 0 < w.mem_samples.length then some (meanJS w.mem_samples) else none
  ⟨w.ts_start, w.ts_start, w.ts_end, w.site_id,
   JSNum.clamp01 cpuUtil,
   gpuUtil.map JSNum.clamp01,
   memUtil.map JSNum.clamp01,
   w.job_count, w.resource_seconds⟩

/-- A fresh `UsageAggregator` fed a whole record list. -/
def usageBuild (windowSizeUs : ℚ) (l : List UsageRec) : List ((String × ℚ) × UsageWindow) :=
  build (usageKey windowSizeUs) (usageInit windowSizeUs) usageUpd l

/-- `UsageAggregator.emit()` output after ingesting `l`. -/
def usageEmit (windowSizeUs : ℚ) (l : List UsageRec) : List UsageOut :=
  emitAll usageOut (usageBuild windowSizeUs l)

/-! ## Generic bucketing lemmas -/

section BucketLemmas

variable {R K W O : Type} [DecidableEq K]
variable {κ : R → K} {init : K → W} {upd : W → R → W}

theorem build_append (l : List R) (r : R) :
    build κ init upd (l ++ [r]) = addRec κ init upd r (build κ init upd l) := by
  simp [build, List.foldl_append]

theorem windowFold_append (k : K) (l : List R) (r : R) :
    windowFold κ init upd k (l ++ [r]) =
      if κ r = k then upd (windowFold κ init upd k l) r
      else windowFold κ init upd k l := by
  by_cases h : κ r = k
  · simp [windowFold, List.filter_append, h, List.foldl_append]
  · simp [windowFold, List.filter_append, h]

theorem windowFold_of_not_mem (k : K) (l : List R) (h : k ∉ l.map κ) :
    windowFold κ init upd k l = init k := by
  have hf : (l.filter fun r => κ r = k) = [] := by
    rw [List.filter_eq_nil_iff]
    intro a ha hk
    exact h (List.mem_map.2 ⟨a, ha, by simpa using hk⟩)
  simp [windowFold, hf]

theorem addRec_map_mem (r : R) (f : K → W) {Ks : List K}
    (hmem : κ r ∈ Ks) (hnd : Ks.Nodup) :
    addRec κ init upd r (Ks.map fun k => (k, f k)) =
      Ks.map fun k => (k, if κ r = k then upd (f k) r else f k) := by
  induction Ks with
  | nil => cases hmem
  | cons k0 rest ih =>
    rw [List.map_cons, List.map_cons, addRec]
    by_cases hk : k0 = κ r
    · rw [if_pos hk]
      have hnotin : k0 ∉ rest := (List.nodup_cons.1 hnd).1
      have htail : ∀ k ∈ rest,
          ((k, if κ r = k then upd (f k) r else f k) : K × W) = (k, f k) := by
        intro k hkmem
        have hne : ¬κ r = k := fun he => hnotin (by rw [hk, he]; exact hkmem)
        simp [hne]
      rw [List.map_congr_left htail, if_pos hk.symm]
    · have hk' : ¬k0 = κ r := hk
      rw [if_neg hk']
      have hmem' : κ r ∈ rest := by
        cases List.mem_cons.1 hmem with
        | inl h => exact absurd h.symm hk
        | inr h => exact h
      have hne : ¬κ r = k0 := fun he => hk he.symm
      rw [ih hmem' (List.nodup_cons.1 hnd).2, if_neg hne]

theorem addRec_map_not_mem (r : R) (f : K → W) {Ks : List K} (hmem : κ r ∉ Ks) :
    addRec κ init upd r (Ks.map fun k => (k, f k)) =
      (Ks.map fun k => (k, f k)) ++ [(κ r, upd (init (κ r)) r)] := by
  induction Ks with
  | nil => simp [addRec]
  | cons k0 rest ih =>
    rw [List.map_cons, addRec]
    have hne : ¬k0 = κ r := fun he => hmem (he ▸ List.mem_cons_self k0 rest)
    rw [if_neg hne, ih fun h => hmem (List.mem_cons_of_mem _ h), List.cons_append]

theorem build_spec (l : List R) :
    ∃ Ks : List K, Ks.Nodup ∧ (∀ k, k ∈ Ks ↔ k ∈ l.map κ) ∧
      build κ init upd l = Ks.map fun k => (k, windowFold κ init upd k l) := by
  induction l using List.reverseRecOn with
  | nil => exact ⟨[], List.nodup_nil, by simp, by simp [build]⟩
  | append_singleton l r ih =>
    obtain ⟨Ks, hnd, hmem, heq⟩ := ih
    rw [build_append, heq]
    by_cases hk : κ r ∈ Ks
    · refine ⟨Ks, hnd, ?_, ?_⟩
      · intro k
        rw [hmem k]
        simp only [List.map_append, List.map_cons, List.map_nil, List.mem_append,
          List.mem_singleton]
        constructor
        · exact Or.inl
        · rintro (h | h)
          · exact h
          · exact (hmem k).1 (h ▸ hk)
      · rw [addRec_map_mem r _ hk hnd]
        refine List.map_congr_left fun k _ => ?_
        rw [windowFold_append]
    · refine ⟨Ks ++ [κ r], ?_, ?_, ?_⟩
      · simp [List.nodup_append, hnd, hk]
      · intro k
        simp only [List.mem_append, List.mem_singleton, hmem k, List.map_append,
          List.map_cons, List.map_nil]
      · rw [addRec_map_not_mem r _ hk, List.map_append]
        congr 1
        · refine List.map_congr_left fun k hkm => ?_
          rw [windowFold_append, if_neg]
          intro he
          exact hk (he ▸ hkm)
        · simp only [List.map_cons, List.map_nil]
          have h1 : windowFold κ init upd (κ r) (l ++ [r]) =
              upd (windowFold κ init upd (κ r) l) r := by
            rw [windowFold_append, if_pos rfl]
          have h2 : windowFold κ init upd (κ r) l = init (κ r) := by
            refine windowFold_of_not_mem _ _ fun hc => hk ?_
            exact (hmem (κ r)).2 hc
          rw [h1, h2]

theorem emit_perm_of_out_eq (out : K × W → O) {l₁ l₂ : List R} (h : l₁.Perm l₂)
    (hout : ∀ k, out (k, windowFold κ init upd k l₁) = out (k, windowFold κ init upd k l₂)) :
    (emitAll out (build κ init upd l₁)).Perm (emitAll out (build κ init upd l₂)) := by
  obtain ⟨Ks₁, nd₁, mem₁, eq₁⟩ := @build_spec R K W _ κ init upd l₁
  obtain ⟨Ks₂, nd₂, mem₂, eq₂⟩ := @build_spec R K W _ κ init upd l₂
  rw [eq₁, eq₂, emitAll, emitAll, List.map_map, List.map_map]
  have hperm : Ks₁.Perm Ks₂ := by
    refine (List.perm_ext_iff_of_nodup nd₁ nd₂).2 fun k => ?_
    rw [mem₁, mem₂]
    exact (h.map κ).mem_iff
  have hfun : (out ∘ fun k => (k, windowFold κ init upd k l₁)) =
      (out ∘ fun k => (k, windowFold κ init upd k l₂)) :=
    funext fun k => hout k
  rw [hfun]
  exact hperm.map _

end BucketLemmas

/-! ## PowerAggregator window characterization -/

theorem powerUpd_fields (w : PowerWindow) (r : PowerRec) :
    (powerUpd w r).ts_start = w.ts_start ∧ (powerUpd w r).ts_end = w.ts_end ∧
    (powerUpd w r).site_id = w.site_id ∧
    (powerUpd w r).power_samples = w.power_samples ++ r.sampleOf.toList := by
  cases hv : r.powerVal <;> simp [powerUpd, PowerRec.sampleOf, hv]

theorem power_foldl_fields (l : List PowerRec) (w0 : PowerWindow) :
    (l.foldl powerUpd w0).ts_start = w0.ts_start ∧
    (l.foldl powerUpd w0).ts_end = w0.ts_end ∧
    (l.foldl powerUpd w0).site_id = w0.site_id ∧
    (l.foldl powerUpd w0).power_samples =
      w0.power_samples ++ l.filterMap PowerRec.sampleOf := by
  induction l generalizing w0 with
  | nil => simp
  | cons r rest ih =>
    obtain ⟨h1, h2, h3, h4⟩ := ih (powerUpd w0 r)
    obtain ⟨g1, g2, g3, g4⟩ := powerUpd_fields w0 r
    refine ⟨?_, ?_, ?_, ?_⟩
    · rw [List.foldl_cons, h1, g1]
    · rw [List.foldl_cons, h2, g2]
    · rw [List.foldl_cons, h3, g3]
    · rw [List.foldl_cons, h4, g4, List.append_assoc]
      congr 1
      cases hs : r.sampleOf <;> simp [List.filterMap_cons, hs]

theorem windowFold_power_fields (ws : ℚ) (k : String × ℚ) (l : List PowerRec) :
    (windowFold (powerKey ws) (powerInit ws) powerUpd k l).ts_start = k.2 ∧
    (windowFold (powerKey ws) (powerInit ws) powerUpd k l).ts_end = k.2 + ws ∧
    (windowFold (powerKey ws) (powerInit ws) powerUpd k l).site_id = k.1 ∧
    (windowFold (powerKey ws) (powerInit ws) powerUpd k l).power_samples =
      (l.filter fun r => powerKey ws r = k).filterMap PowerRec.sampleOf := by
  have h := power_foldl_fields (l.filter fun r => powerKey ws r = k) (powerInit ws k)
  simp only [powerInit, List.nil_append] at h
  exact h

/-! ## UsageAggregator window characterization -/

theorem usageUpd_spec (w : UsageWindow) (r : UsageRec) :
    usageUpd w r =
      ⟨w.ts_start, w.ts_end, w.site_id,
       w.cpu_samples ++ (r.cpuExtract.map JSVal.toNum).toList,
       w.gpu_samples ++ (r.gpuExtract.map JSVal.toNum).toList,
       w.mem_samples ++ (r.memExtract.map JSVal.toNum).toList,
       w.job_count + (if r.hasType || r.hasEventType then 1 else 0),
       JSNum.add w.resource_seconds r.resourceContrib⟩ := by
  cases h1 : r.cpuExtract <;> cases h2 : r.memExtract <;> cases h3 : r.gpuExtract <;>
    by_cases h4 : (r.hasType || r.hasEventType) = true <;>
      simp [usageUpd, h1, h2, h3, h4]

theorem usage_foldl_spec (l : List UsageRec) (w0 : UsageWindow) :
    l.foldl usageUpd w0 =
      ⟨w0.ts_start, w0.ts_end, w0.site_id,
       w0.cpu_samples ++ l.filterMap (fun r => r.cpuExtract.map JSVal.toNum),
       w0.gpu_samples ++ l.filterMap (fun r => r.gpuExtract.map JSVal.toNum),
       w0.mem_samples ++ l.filterMap (fun r => r.memExtract.map JSVal.toNum),
       w0.job_count + l.countP (fun r => r.hasType || r.hasEventType),
       (l.map UsageRec.resourceContrib).foldl JSNum.add w0.resource_seconds⟩ := by
  induction l generalizing w0 with
  | nil => simp
  | cons r rest ih =>
    rw [List.foldl_cons, usageUpd_spec, ih]
    simp only [UsageWindow.mk.injEq]
    refine ⟨trivial, trivial, trivial, ?_, ?_, ?_, ?_, ?_⟩
    · rw [List.append_assoc]
      congr 1
      cases hs : r.cpuExtract <;> simp [List.filterMap_cons, hs]
    · rw [List.append_assoc]
      congr 1
      cases hs : r.gpuExtract <;> simp [List.filterMap_cons, hs]
    · rw [List.append_assoc]
      congr 1
      cases hs : r.memExtract <;> simp [List.filterMap_cons, hs]
    · by_cases h4 : (r.hasType || r.hasEventType) = true <;>
        simp [List.countP_cons, h4] <;> omega
    · rw [List.map_cons, List.foldl_cons]

/-! ## Permutation invariance of the per-window outputs -/

theorem JSNum.add_right_comm (z x y : JSNum) :
    JSNum.add (JSNum.add z x) y = JSNum.add (JSNum.add z y) x := by
  cases z <;> cases x <;> cases y <;> simp [JSNum.add] <;> ring

theorem meanJS_eq_of_perm {a b : List JSNum} (h : a.Perm b) : meanJS a = meanJS b := by
  rw [meanJS, meanJS, h.length_eq,
    h.foldl_eq' (fun x _ y _ z => JSNum.add_right_comm z x y) (JSNum.num 0)]

instance : IsTotal (ℚ × ℚ) fun a b => a.1 ≤ b.1 := ⟨fun a b => le_total a.1 b.1⟩

instance : IsTrans (ℚ × ℚ) fun a b => a.1 ≤ b.1 := ⟨fun _ _ _ hab hbc => le_trans hab hbc⟩

instance : IsAntisymm (ℚ × ℚ) fun a b => a.1 < b.1 := ⟨fun _ _ h h' => absurd h' (lt_asymm h)⟩

theorem sortByTs_eq_of_perm {s1 s2 : List (ℚ × ℚ)} (hp : s1.Perm s2)
    (hd : s1.Pairwise fun a b => a.1 ≠ b.1) : sortByTs s1 = sortByTs s2 := by
  have hsymm : ∀ {x y : ℚ × ℚ}, x.1 ≠ y.1 → y.1 ≠ x.1 := fun h => h.symm
  have hperm : (sortByTs s1).Perm (sortByTs s2) :=
    ((s1.perm_insertionSort _).trans hp).trans (s2.perm_insertionSort _).symm
  have hne1 : (sortByTs s1).Pairwise fun a b => a.1 ≠ b.1 :=
    (List.Perm.pairwise_iff hsymm (s1.perm_insertionSort _)).2 hd
  have hd2 : s2.Pairwise fun a b => a.1 ≠ b.1 := (List.Perm.pairwise_iff hsymm hp).1 hd
  have hne2 : (sortByTs s2).Pairwise fun a b => a.1 ≠ b.1 :=
    (List.Perm.pairwise_iff hsymm (s2.perm_insertionSort _)).2 hd2
  have hs1 : (sortByTs s1).Pairwise fun a b : ℚ × ℚ => a.1 ≤ b.1 :=
    List.sorted_insertionSort _ s1
  have hs2 : (sortByTs s2).Pairwise fun a b : ℚ × ℚ => a.1 ≤ b.1 :=
    List.sorted_insertionSort _ s2
  have hstrict1 : (sortByTs s1).Pairwise fun a b : ℚ × ℚ => a.1 < b.1 :=
    List.Pairwise.imp₂ (fun _ _ hle hne => lt_of_le_of_ne hle hne) hs1 hne1
  have hstrict2 : (sortByTs s2).Pairwise fun a b : ℚ × ℚ => a.1 < b.1 :=
    List.Pairwise.imp₂ (fun _ _ hle hne => lt_of_le_of_ne hle hne) hs2 hne2
  exact List.eq_of_perm_of_sorted hperm hstrict1 hstrict2

theorem computeEnergy_eq_of_perm (ws : ℚ) {s1 s2 : List (ℚ × ℚ)} (hp : s1.Perm s2)
    (hd : s1.Pairwise fun a b => a.1 ≠ b.1) :
    computeEnergy ws s1 = computeEnergy ws s2 := by
  have hlen := hp.length_eq
  by_cases h2 : s1.length < 2
  · have heq : s1 = s2 := by
      match s1, hp, h2 with
      | [], hp, _ => exact hp.nil_eq
      | [a], hp, _ => exact List.singleton_perm.1 hp
      | a :: b :: u, _, h2 =>
        exfalso
        simp only [List.length_cons] at h2
        omega
    rw [heq]
  · rw [computeEnergy, computeEnergy, if_neg h2, if_neg (by omega : ¬s2.length < 2),
      sortByTs_eq_of_perm hp hd]

theorem powerOut_eq_of_perm (ws : ℚ) {l1 l2 : List PowerRec} (h : l1.Perm l2)
    (hd : l1.Pairwise fun a b => powerKey ws a = powerKey ws b → a.normTs ≠ b.normTs)
    (k : String × ℚ) :
    powerOut ws (k, windowFold (powerKey ws) (powerInit ws) powerUpd k l1) =
      powerOut ws (k, windowFold (powerKey ws) (powerInit ws) powerUpd k l2) := by
  obtain ⟨a1, b1, c1, d1⟩ := windowFold_power_fields ws k l1
  obtain ⟨a2, b2, c2, d2⟩ := windowFold_power_fields ws k l2
  have hs : ((l1.filter fun r => powerKey ws r = k).filterMap PowerRec.sampleOf).Perm
      ((l2.filter fun r => powerKey ws r = k).filterMap PowerRec.sampleOf) :=
    (h.filter _).filterMap _
  have hdist : ((l1.filter fun r => powerKey ws r = k).filterMap PowerRec.sampleOf).Pairwise
      fun a b => a.1 ≠ b.1 := by
    have h1 : (l1.filter fun r => powerKey ws r = k).Pairwise
        fun a b => powerKey ws a = powerKey ws b → a.normTs ≠ b.normTs := hd.filter _
    have h2 : (l1.filter fun r => powerKey ws r = k).Pairwise
        fun a b => a.normTs ≠ b.normTs := by
      refine h1.imp_of_mem ?_
      intro a b ha hb hr
      have hka : powerKey ws a = k := of_decide_eq_true (List.mem_filter.1 ha).2
      have hkb : powerKey ws b = k := of_decide_eq_true (List.mem_filter.1 hb).2
      exact hr (hka.trans hkb.symm)
    refine h2.filterMap PowerRec.sampleOf ?_
    intro a a' hne b hb b' hb'
    simp only [PowerRec.sampleOf, Option.mem_def, Option.map_eq_some'] at hb hb'
    obtain ⟨p, _, hp⟩ := hb
    obtain ⟨p', _, hp'⟩ := hb'
    rw [← hp, ← hp']
    simpa using hne
  have hlen := hs.length_eq
  have hsum : ((l1.filter fun r => powerKey ws r = k).filterMap PowerRec.sampleOf).foldl
      (fun sum s => sum + s.2) (0 : ℚ) =
      ((l2.filter fun r => powerKey ws r = k).filterMap PowerRec.sampleOf).foldl
        (fun sum s => sum + s.2) (0 : ℚ) :=
    hs.foldl_eq' (fun x _ y _ z => by ring) 0
  have hen := computeEnergy_eq_of_perm ws hs hdist
  simp only [powerOut]
  rw [a1, a2, b1, b2, c1, c2, d1, d2, hlen, hen, hsum]

theorem usageOut_eq_of_perm (ws : ℚ) {u1 u2 : List UsageRec} (h : u1.Perm u2)
    (k : String × ℚ) :
    usageOut (k, windowFold (usageKey ws) (usageInit ws) usageUpd k u1) =
      usageOut (k, windowFold (usageKey ws) (usageInit ws) usageUpd k u2) := by
  have e1 := usage_foldl_spec (u1.filter fun r => usageKey ws r = k) (usageInit ws k)
  have e2 := usage_foldl_spec (u2.filter fun r => usageKey ws r = k) (usageInit ws k)
  simp only [usageInit, List.nil_append, Nat.zero_add] at e1 e2
  have hcpu : ((u1.filter fun r => usageKey ws r = k).filterMap
      (fun r => r.cpuExtract.map JSVal.toNum)).Perm
      ((u2.filter fun r => usageKey ws r = k).filterMap
        (fun r => r.cpuExtract.map JSVal.toNum)) := (h.filter _).filterMap _
  have hgpu : ((u1.filter fun r => usageKey ws r = k).filterMap
      (fun r => r.gpuExtract.map JSVal.toNum)).Perm
      ((u2.filter fun r => usageKey ws r = k).filterMap
        (fun r => r.gpuExtract.map JSVal.toNum)) := (h.filter _).filterMap _
  have hmem : ((u1.filter fun r => usageKey ws r = k).filterMap
      (fun r => r.memExtract.map JSVal.toNum)).Perm
      ((u2.filter fun r => usageKey ws r = k).filterMap
        (fun r => r.memExtract.map JSVal.toNum)) := (h.filter _).filterMap _
  have hjob := (h.filter fun r => usageKey ws r = k).countP_eq
    fun r => r.hasType || r.hasEventType
  have hres := (((h.filter fun r => usageKey ws r = k)).map
    UsageRec.resourceContrib).foldl_eq'
    (fun x _ y _ z => JSNum.add_right_comm z x y) (JSNum.num 0)
  simp only [windowFold, usageInit]
  rw [e1, e2]
  simp only [usageOut]
  rw [hcpu.length_eq, hgpu.length_eq, hmem.length_eq, meanJS_eq_of_perm hcpu,
    meanJS_eq_of_perm hgpu, meanJS_eq_of_perm hmem, hjob, hres]

/-! ## Claim C1 -/

/-- C1: for every TSV record, `computeEnst` returns `work_units / energy_j`
iff `energy_j` is present and strictly positive and `work_units` is present
(including zero), and returns null in every other case (energy absent,
energy non-positive, or work absent); division by a non-positive or absent
energy is never performed. -/
theorem computeEnst_spec (tsv : TSV) :
    (∀ e w, tsv.energy_j = some e → 0 < e → tsv.work_units = some w →
      computeEnst tsv = some (w / e)) ∧
    (tsv.energy_j = none ∨ (∃ e, tsv.energy_j = some e ∧ e ≤ 0) ∨ tsv.work_units = none →
      computeEnst tsv = none) := by
  constructor
  · intro e w he hpos hw
    simp only [computeEnst, he, hw]
    rw [if_neg (not_le.2 hpos)]
  · rintro (he | ⟨e, he, hle⟩ | hw)
    · simp [computeEnst, he]
    · simp only [computeEnst, he]
      rw [if_pos hle]
    · cases he : tsv.energy_j with
      | none => simp [computeEnst, he]
      | some e => by_cases hle : e ≤ 0 <;> simp [computeEnst, he, hw, hle]

/-- Witness for C1: a record with energy 2 J and zero work units gets ENST
0/2, and a record with energy 0 gets null. -/
theorem computeEnst_spec_witness :
    ({ TSV.empty with energy_j := some 2, work_units := some 0 } : TSV).energy_j = some 2 ∧
    (0 : ℚ) < 2 ∧
    ({ TSV.empty with energy_j := some 2, work_units := some 0 } : TSV).work_units = some 0 ∧
    computeEnst { TSV.empty with energy_j := some 2, work_units := some 0 } = some (0 / 2) ∧
    computeEnst { TSV.empty with energy_j := some 0, work_units := some 7 } = none := by
  refine ⟨rfl, by norm_num, rfl, ?_, ?_⟩
  · exact (computeEnst_spec _).1 2 0 rfl (by norm_num) rfl
  · exact (computeEnst_spec _).2 (Or.inr (Or.inl ⟨0, rfl, le_refl 0⟩))

/-! ## Claim C2 -/

/-- The claim's formula for trapezoidal integration: the sum over
consecutive pairs of `avg(p[i-1], p[i]) * (t[i] - t[i-1])` with time
differences converted to seconds. -/
def trapSum : List (ℚ × ℚ) → ℚ
  | a :: b :: rest => (a.2 + b.2) / 2 * ((b.1 - a.1) / 1000000) + trapSum (b :: rest)
  | _ => 0

theorem trapLoop_acc (l : List (ℚ × ℚ)) :
    ∀ acc : ℚ, (l.zip l.tail).foldl
      (fun acc ab => acc + (ab.2.2 + ab.1.2) / 2 * ((ab.2.1 - ab.1.1) / 1000000)) acc =
      acc + trapSum l := by
  induction l with
  | nil => intro acc; simp [trapSum]
  | cons a tail ih =>
    intro acc
    cases tail with
    | nil => simp [trapSum]
    | cons b rest =>
      simp only [List.tail_cons] at ih
      simp only [List.tail_cons, List.zip_cons_cons, List.foldl_cons]
      rw [ih]
      conv_rhs => rw [trapSum]
      ring

theorem trapLoop_eq_trapSum (l : List (ℚ × ℚ)) : trapLoop l = trapSum l := by
  rw [trapLoop, trapLoop_acc l 0, zero_add]

/-- C2: the energy emitted for a window is 0 J with 0 samples; power times
the window duration in seconds with exactly 1 sample; and with 2 or more
samples the trapezoidal sum over the samples stably sorted by timestamp,
with time differences converted from microseconds to seconds. -/
theorem computeEnergy_spec (windowSizeUs : ℚ) (samples : List (ℚ × ℚ)) :
    (samples = [] → computeEnergy windowSizeUs samples = 0) ∧
    (∀ t p, samples = [(t, p)] →
      computeEnergy windowSizeUs samples = p * (windowSizeUs / 1000000)) ∧
    (2 ≤ samples.length →
      computeEnergy windowSizeUs samples = trapSum (sortByTs samples)) := by
  refine ⟨?_, ?_, ?_⟩
  · intro h; subst h; rfl
  · intro t p h; subst h; rfl
  · intro h
    rw [computeEnergy, if_neg (by omega), trapLoop_eq_trapSum]

/-- Witness for C2: a two-sample window 1 s apart at 0 W and 10 W
integrates to 5 J, matching the trapezoid formula on the sorted samples. -/
theorem computeEnergy_spec_witness :
    computeEnergy 300000000 [] = 0 ∧
    computeEnergy 300000000 [(0, 2)] = 2 * (300000000 / 1000000) ∧
    2 ≤ ([((1000000 : ℚ), (10 : ℚ)), (0, 0)] : List (ℚ × ℚ)).length ∧
    computeEnergy 300000000 [((1000000 : ℚ), (10 : ℚ)), (0, 0)] =
      trapSum (sortByTs [((1000000 : ℚ), (10 : ℚ)), (0, 0)]) ∧
    trapSum (sortByTs [((1000000 : ℚ), (10 : ℚ)), (0, 0)]) = 5 := by
  refine ⟨(computeEnergy_spec 300000000 []).1 rfl,
    (computeEnergy_spec 300000000 [(0, 2)]).2.1 0 2 rfl,
    by norm_num,
    (computeEnergy_spec 300000000 _).2.2 (by norm_num), ?_⟩
  norm_num [sortByTs, List.insertionSort, List.orderedInsert, trapSum]

/-! ## Claim C3 -/

/-- Counterexample to C3 as stated: a record with `validated_steps` absent
but `timesteps` present is reported as mode 'domain', not 'infra_fallback'
as the claim's "otherwise" clause demands. -/
theorem computeWorkUnitsDomain_timesteps_cx :
    ({ TSV.empty with timesteps := some 5 } : TSV).validated_steps = none ∧
    computeWorkUnitsDomain { TSV.empty with timesteps := some 5 } = (5, Mode.domain) ∧
    Mode.domain ≠ Mode.infra_fallback := by
  refine ⟨rfl, rfl, by simp⟩

/-- C3 (amended): `computeWorkUnitsDomain` returns mode 'domain' whenever
`validated_steps` is present (even 0) or, failing that, whenever
`timesteps` is present (even 0); only when both are absent does it return
mode 'infra_fallback', and then its value equals `computeWorkUnitsInfra`'s
output for the same record (at the default gpuWeight 1). -/
theorem computeWorkUnitsDomain_spec (tsv : TSV) :
    (∀ v, tsv.validated_steps = some v →
      computeWorkUnitsDomain tsv = (v, Mode.domain)) ∧
    (∀ v, tsv.validated_steps = none → tsv.timesteps = some v →
      computeWorkUnitsDomain tsv = (v, Mode.domain)) ∧
    (tsv.validated_steps = none → tsv.timesteps = none →
      computeWorkUnitsDomain tsv = (computeWorkUnitsInfra tsv 1, Mode.infra_fallback)) := by
  refine ⟨?_, ?_, ?_⟩
  · intro v hv; rw [computeWorkUnitsDomain, hv]
  · intro v hv ht; rw [computeWorkUnitsDomain, hv, ht]
  · intro hv ht; rw [computeWorkUnitsDomain, hv, ht]

/-- Witness for C3 (amended): validated_steps 0 gives mode 'domain';
timesteps-only gives mode 'domain'; neither gives the infra fallback. -/
theorem computeWorkUnitsDomain_spec_witness :
    computeWorkUnitsDomain { TSV.empty with validated_steps := some 0 } = (0, Mode.domain) ∧
    computeWorkUnitsDomain { TSV.empty with timesteps := some 3 } = (3, Mode.domain) ∧
    computeWorkUnitsDomain TSV.empty =
      (computeWorkUnitsInfra TSV.empty 1, Mode.infra_fallback) := by
  exact ⟨(computeWorkUnitsDomain_spec _).1 0 rfl,
    (computeWorkUnitsDomain_spec _).2.1 3 rfl rfl,
    (computeWorkUnitsDomain_spec _).2.2 rfl rfl⟩

/-! ## Claim C4 -/

/-- Counterexample to C4 as stated: `UsageAggregator.addUsageRecord` buckets
the raw timestamp without any unit normalization. A usage record with
timestamp 1e9 (seconds magnitude) is bucketed at window start 9e8, not at
the window start 999999900000000 that bucketing the
microsecond-converted timestamp would give. -/
theorem usage_no_normalization_cx :
    usageKey 300000000 { UsageRec.empty with time := some 1000000000, site_id := some "s" } =
      ("s", 900000000) ∧
    windowStart 300000000 (normalizeTimestamp 1000000000) = 999999900000000 ∧
    usageKey 300000000 { UsageRec.empty with time := some 1000000000, site_id := some "s" } ≠
      ("s", windowStart 300000000 (normalizeTimestamp
        (UsageRec.rawTs { UsageRec.empty with time := some 1000000000, site_id := some "s" }))) := by
  refine ⟨?_, ?_, ?_⟩ <;>
    norm_num [usageKey, UsageRec.rawTs, UsageRec.site, UsageRec.empty, jsOrQ,
      windowStart, normalizeTimestamp, Prod.ext_iff]

/-- C4 (amended): `PowerAggregator` resolves timestamp-unit ambiguity by the
magnitude heuristic before bucketing — `ts * 1e6` when `ts < 1e10`
(seconds), `ts * 1e3` when `1e10 ≤ ts < 1e13` (milliseconds), `ts`
unchanged otherwise — and its window key is computed from the normalized
timestamp; `UsageAggregator` applies no such normalization: its window key
is computed from the raw timestamp. -/
theorem timestamp_bucketing_spec :
    (∀ ts : ℚ, ts < 10000000000 → normalizeTimestamp ts = ts * 1000000) ∧
    (∀ ts : ℚ, 10000000000 ≤ ts → ts < 10000000000000 → normalizeTimestamp ts = ts * 1000) ∧
    (∀ ts : ℚ, 10000000000000 ≤ ts → normalizeTimestamp ts = ts) ∧
    (∀ (ws : ℚ) (r : PowerRec),
      powerKey ws r = (r.site, windowStart ws (normalizeTimestamp r.rawTs))) ∧
    (∀ (ws : ℚ) (r : UsageRec), usageKey ws r = (r.site, windowStart ws r.rawTs)) := by
  refine ⟨?_, ?_, ?_, ?_, ?_⟩
  · intro ts h; rw [normalizeTimestamp, if_pos h]
  · intro ts h1 h2
    rw [normalizeTimestamp, if_neg (not_lt.2 h1), if_pos h2]
  · intro ts h
    rw [normalizeTimestamp, if_neg (not_lt.2 (le_trans (by norm_num) h)),
      if_neg (not_lt.2 h)]
  · intro ws r; rfl
  · intro ws r; rfl

/-- Witness for C4 (amended): the three magnitude bands at 5, 1e11 and
1e14. -/
theorem timestamp_bucketing_spec_witness :
    ((5 : ℚ) < 10000000000 ∧ normalizeTimestamp 5 = 5 * 1000000) ∧
    ((10000000000 : ℚ) ≤ 100000000000 ∧ (100000000000 : ℚ) < 10000000000000 ∧
      normalizeTimestamp 100000000000 = 100000000000 * 1000) ∧
    ((10000000000000 : ℚ) ≤ 100000000000000 ∧
      normalizeTimestamp 100000000000000 = 100000000000000) := by
  refine ⟨⟨by norm_num, timestamp_bucketing_spec.1 5 (by norm_num)⟩,
    ⟨by norm_num, by norm_num, timestamp_bucketing_spec.2.1 100000000000 (by norm_num) (by norm_num)⟩,
    ⟨by norm_num, timestamp_bucketing_spec.2.2.1 100000000000000 (by norm_num)⟩⟩

/-! ## Claim C5 -/

/-- Power sample at timestamp 0 s, 0 W, site "s". -/
def c5A : PowerRec :=
  ⟨some 0, none, none, none, some "s", none, none, some (JSVal.num 0), none, none, none,
   none, none⟩

/-- Power sample at timestamp 0 s, 10 W, site "s". -/
def c5B : PowerRec :=
  ⟨some 0, none, none, none, some "s", none, none, some (JSVal.num 10), none, none, none,
   none, none⟩

/-- Power sample at timestamp 1 s, 0 W, site "s". -/
def c5C : PowerRec :=
  ⟨some 1, none, none, none, some "s", none, none, some (JSVal.num 0), none, none, none,
   none, none⟩

/-- Counterexample to C5 as stated: with two samples sharing a timestamp in
one window, the stable sort preserves arrival order and the trapezoidal
energy depends on it. Swapping the first two of three samples (0 s at 0 W,
0 s at 10 W, 1 s at 0 W) changes the emitted window energy from 5 J to
0 J, so the two emit() outputs differ even as multisets. -/
theorem aggregation_order_cx :
    ([c5A, c5B, c5C] : List PowerRec).Perm [c5B, c5A, c5C] ∧
    ¬ (powerEmit 300000000 [c5A, c5B, c5C]).Perm (powerEmit 300000000 [c5B, c5A, c5C]) := by
  constructor
  · exact List.Perm.swap c5B c5A [c5C]
  · intro hperm
    have e1 : powerEmit 300000000 [c5A, c5B, c5C] =
        [⟨0, 0, 300000000, "s", 10/3, 5, 3⟩] := by
      norm_num [powerEmit, emitAll, powerBuild, build, addRec, powerKey, powerInit,
        powerUpd, PowerRec.normTs, PowerRec.rawTs, PowerRec.site, PowerRec.powerVal,
        normalizeTimestamp, windowStart, c5A, c5B, c5C, powerOut, computeEnergy,
        sortByTs, trapLoop, List.insertionSort, List.orderedInsert]
    have e2 : powerEmit 300000000 [c5B, c5A, c5C] =
        [⟨0, 0, 300000000, "s", 10/3, 0, 3⟩] := by
      norm_num [powerEmit, emitAll, powerBuild, build, addRec, powerKey, powerInit,
        powerUpd, PowerRec.normTs, PowerRec.rawTs, PowerRec.site, PowerRec.powerVal,
        normalizeTimestamp, windowStart, c5A, c5B, c5C, powerOut, computeEnergy,
        sortByTs, trapLoop, List.insertionSort, List.orderedInsert]
    rw [e1, e2] at hperm
    have heq := List.perm_singleton.1 hperm
    norm_num [PowerOut.mk.injEq] at heq

/-- C5 (amended): aggregation is order-independent up to the emission order
of the per-window records (JS Map insertion order follows first arrival):
permuting the input multiset yields emit() output equal as a multiset of
window records — unconditionally for the UsageAggregator, and for the
PowerAggregator provided no two samples of the same site and window share
the same normalized timestamp (with duplicate timestamps the trapezoidal
energy may depend on arrival order). -/
theorem aggregation_order_independent (wsP wsU : ℚ)
    (l1 l2 : List PowerRec) (u1 u2 : List UsageRec)
    (hP : l1.Perm l2)
    (hd : l1.Pairwise fun a b => powerKey wsP a = powerKey wsP b → a.normTs ≠ b.normTs)
    (hU : u1.Perm u2) :
    (powerEmit wsP l1).Perm (powerEmit wsP l2) ∧
    (usageEmit wsU u1).Perm (usageEmit wsU u2) := by
  constructor
  · exact emit_perm_of_out_eq (powerOut wsP) hP fun k => powerOut_eq_of_perm wsP hP hd k
  · exact emit_perm_of_out_eq usageOut hU fun k => usageOut_eq_of_perm wsU hU k

/-- Witness for C5 (amended): two power samples with distinct timestamps
fed in either order, and a singleton usage stream. -/
theorem aggregation_order_independent_witness :
    ([c5A, c5C] : List PowerRec).Perm [c5C, c5A] ∧
    ([c5A, c5C] : List PowerRec).Pairwise
      (fun a b => powerKey 300000000 a = powerKey 300000000 b → a.normTs ≠ b.normTs) ∧
    ([UsageRec.empty] : List UsageRec).Perm [UsageRec.empty] ∧
    (powerEmit 300000000 [c5A, c5C]).Perm (powerEmit 300000000 [c5C, c5A]) ∧
    (usageEmit 300000000 [UsageRec.empty]).Perm (usageEmit 300000000 [UsageRec.empty]) := by
  have h1 : ([c5A, c5C] : List PowerRec).Perm [c5C, c5A] := List.Perm.swap c5C c5A []
  have h2 : ([c5A, c5C] : List PowerRec).Pairwise
      (fun a b => powerKey 300000000 a = powerKey 300000000 b → a.normTs ≠ b.normTs) := by
    refine List.pairwise_cons.2 ⟨?_, List.pairwise_singleton _ _⟩
    intro b hb
    simp only [List.mem_singleton] at hb
    subst hb
    intro _
    norm_num [PowerRec.normTs, PowerRec.rawTs, normalizeTimestamp, c5A, c5C]
  have h3 : ([UsageRec.empty] : List UsageRec).Perm [UsageRec.empty] := List.Perm.refl _
  obtain ⟨hp, hu⟩ :=
    aggregation_order_independent 300000000 300000000 [c5A, c5C] [c5C, c5A]
      [UsageRec.empty] [UsageRec.empty] h1 h2 h3
  exact ⟨h1, h2, h3, hp, hu⟩

/-! ## Claim C6 -/

/-- A JS number is a fraction in [0,1] (in particular, it is not NaN). -/
def inRange01 (x : JSNum) : Prop := ∃ q, x = JSNum.num q ∧ 0 ≤ q ∧ q ≤ 1

/-- Whether a possibly-absent utilization value is not an unparseable
string. -/
def numericValB : Option JSVal → Bool
  | some JSVal.str => false
  | _ => true

/-- A usage record whose `cpu_util` is an unparseable string. -/
def c6Bad : UsageRec :=
  ⟨none, none, none, none, none, some "s", none, some JSVal.str, none, none, none,
   false, false⟩

/-- Counterexample to C6 as stated: `addUsageRecord` pushes `Number(v)` of a
present utilization field with no NaN guard, so an unparseable `cpu_util`
becomes NaN, survives the mean and the `Math.min(1, Math.max(0, ·))` clamp,
and is emitted as a `cpu_util` that is not in [0,1] — it is not dropped. -/
theorem usage_nan_cx :
    (usageEmit 300000000 [c6Bad]).map UsageOut.cpu_util = [JSNum.nan] ∧
    ¬ inRange01 JSNum.nan := by
  constructor
  · norm_num [usageEmit, emitAll, usageBuild, build, addRec, usageKey, usageInit,
      usageUpd, UsageRec.rawTs, UsageRec.site, UsageRec.cpuExtract, UsageRec.memExtract,
      UsageRec.gpuExtract, UsageRec.durationSec, UsageRec.cpuForResource,
      UsageRec.resourceContrib, jsOrQ, windowStart, usageOut, meanJS, JSNum.add,
      JSNum.mul, JSNum.divNat, JSNum.clamp01, JSNum.jsMin, JSNum.jsMax, JSVal.toNum,
      JSVal.truthy, c6Bad]
  · rintro ⟨q, hq, -⟩
    cases hq

theorem foldl_add_isNum {l : List JSNum} (h : ∀ x ∈ l, x.isNum = true) :
    ∀ a : ℚ, ∃ q, l.foldl JSNum.add (JSNum.num a) = JSNum.num q := by
  induction l with
  | nil => exact fun a => ⟨a, rfl⟩
  | cons x rest ih =>
    intro a
    cases x with
    | num b =>
      have : List.foldl JSNum.add (JSNum.num a) (JSNum.num b :: rest) =
          List.foldl JSNum.add (JSNum.num (a + b)) rest := rfl
      rw [this]
      exact ih (fun y hy => h y (List.mem_cons_of_mem _ hy)) (a + b)
    | nan =>
      have := h JSNum.nan (List.mem_cons_self _ _)
      simp [JSNum.isNum] at this

theorem meanJS_isNum {l : List JSNum} (h : ∀ x ∈ l, x.isNum = true) (hne : l ≠ []) :
    ∃ q, meanJS l = JSNum.num q := by
  obtain ⟨s, hs⟩ := foldl_add_isNum h 0
  refine ⟨s / (l.length : ℚ), ?_⟩
  rw [meanJS, hs, JSNum.divNat, if_neg]
  simpa using hne

theorem clamp01_range (q : ℚ) : inRange01 (JSNum.clamp01 (JSNum.num q)) :=
  ⟨min 1 (max 0 q), rfl, le_min (by norm_num) (le_max_left 0 q), min_le_left 1 _⟩

theorem samples_isNum (ws : ℚ) (k : String × ℚ) {l : List UsageRec}
    (f : UsageRec → Option JSVal) (hf : ∀ r ∈ l, numericValB (f r) = true) :
    ∀ x ∈ (l.filter fun r => usageKey ws r = k).filterMap (fun r => (f r).map JSVal.toNum),
      x.isNum = true := by
  intro x hx
  rw [List.mem_filterMap] at hx
  obtain ⟨r, hr, hmap⟩ := hx
  have hrl : r ∈ l := List.mem_of_mem_filter hr
  have hnum := hf r hrl
  cases hv : f r with
  | none => rw [hv] at hmap; cases hmap
  | some v =>
    rw [hv] at hmap
    cases v with
    | num q =>
      simp only [Option.map_some', Option.some.injEq] at hmap
      rw [← hmap]
      rfl
    | str => rw [hv] at hnum; simp [numericValB] at hnum

/-- C6 (amended): provided every present utilization field of the input
stream parses as a number, every record emitted by `UsageAggregator.emit()`
has `cpu_util` in [0,1] and `gpu_util`/`mem_util` each null or in [0,1].
Unparseable utilization fields are not dropped: they are pushed as NaN and
propagate to the emitted value. -/
theorem usage_emit_clamped (ws : ℚ) (l : List UsageRec)
    (hnum : ∀ r ∈ l, numericValB r.cpuExtract = true ∧ numericValB r.memExtract = true ∧
      numericValB r.gpuExtract = true) :
    ∀ o ∈ usageEmit ws l,
      inRange01 o.cpu_util ∧
      (o.gpu_util = none ∨ ∃ x, o.gpu_util = some x ∧ inRange01 x) ∧
      (o.mem_util = none ∨ ∃ x, o.mem_util = some x ∧ inRange01 x) := by
  intro o ho
  obtain ⟨Ks, hnd, hmem, heq⟩ := @build_spec UsageRec (String × ℚ) UsageWindow _
    (usageKey ws) (usageInit ws) usageUpd l
  rw [usageEmit, usageBuild, heq, emitAll, List.map_map, List.mem_map] at ho
  obtain ⟨k, hkmem, hko⟩ := ho
  have e := usage_foldl_spec (l.filter fun r => usageKey ws r = k) (usageInit ws k)
  rw [← hko]
  simp only [Function.comp_apply, windowFold]
  rw [e]
  simp only [usageInit, usageOut, List.nil_append]
  refine ⟨?_, ?_, ?_⟩
  · by_cases hc : 0 < ((l.filter fun r => usageKey ws r = k).filterMap
        (fun r => r.cpuExtract.map JSVal.toNum)).length
    · obtain ⟨q, hq⟩ := meanJS_isNum
        (samples_isNum ws k UsageRec.cpuExtract fun r hr => (hnum r hr).1)
        (List.length_pos.1 hc)
      rw [if_pos hc, hq]
      exact clamp01_range q
    · rw [if_neg hc]
      exact clamp01_range 0
  · by_cases hg : 0 < ((l.filter fun r => usageKey ws r = k).filterMap
        (fun r => r.gpuExtract.map JSVal.toNum)).length
    · obtain ⟨q, hq⟩ := meanJS_isNum
        (samples_isNum ws k UsageRec.gpuExtract fun r hr => (hnum r hr).2.2)
        (List.length_pos.1 hg)
      rw [if_pos hg]
      exact Or.inr ⟨_, rfl, by rw [hq]; exact clamp01_range q⟩
    · rw [if_neg hg]
      exact Or.inl rfl
  · by_cases hm : 0 < ((l.filter fun r => usageKey ws r = k).filterMap
        (fun r => r.memExtract.map JSVal.toNum)).length
    · obtain ⟨q, hq⟩ := meanJS_isNum
        (samples_isNum ws k UsageRec.memExtract fun r hr => (hnum r hr).2.1)
        (List.length_pos.1 hm)
      rw [if_pos hm]
      exact Or.inr ⟨_, rfl, by rw [hq]; exact clamp01_range q⟩
    · rw [if_neg hm]
      exact Or.inl rfl

/-- A usage record whose `cpu_util` is the (numeric, out-of-range) value
2. -/
def c6Good : UsageRec :=
  ⟨none, none, none, none, none, none, none, some (JSVal.num 2), none, none, none,
   false, false⟩

/-- Witness for C6 (amended): a single all-numeric record (cpu_util 2) is
emitted with cpu_util clamped into [0,1] and null gpu/mem. -/
theorem usage_emit_clamped_witness :
    (∀ r ∈ [c6Good], numericValB r.cpuExtract = true ∧ numericValB r.memExtract = true ∧
      numericValB r.gpuExtract = true) ∧
    (∀ o ∈ usageEmit 300000000 [c6Good],
      inRange01 o.cpu_util ∧
      (o.gpu_util = none ∨ ∃ x, o.gpu_util = some x ∧ inRange01 x) ∧
      (o.mem_util = none ∨ ∃ x, o.mem_util = some x ∧ inRange01 x)) := by
  have hnum : ∀ r ∈ [c6Good], numericValB r.cpuExtract = true ∧
      numericValB r.memExtract = true ∧ numericValB r.gpuExtract = true := by
    intro r hr
    rw [List.mem_singleton] at hr
    subst hr
    exact ⟨rfl, rfl, rfl⟩
  exact ⟨hnum, usage_emit_clamped 300000000 [c6Good] hnum⟩

/-! ## Claim C7 -/

/-- C7: a record whose `power_w` exceeds a configured `energy_cap_w` always
gets `throttle_applied = true` and an `energy_cap` violation; a record
within all configured caps (no configured cap is exceeded) produces an
empty violations list and `throttle_applied = false`. -/
theorem evaluatePolicy_spec :
    (∀ (r : TSV) (p : Policy) (cap pw : ℚ),
      p.energy_cap_w = some cap → r.power_w = some pw → cap < pw →
      (evaluatePolicy r p).throttle_applied = true ∧
      ∃ v ∈ (evaluatePolicy r p).violations, v.vtype = VType.energy_cap) ∧
    (∀ (r : TSV) (p : Policy),
      (∀ cap pw, p.energy_cap_w = some cap → r.power_w = some pw → pw ≤ cap) →
      (∀ cap th, p.thermal_cap_w = some cap → r.thermal_headroom_w = some th → cap ≤ th) →
      (∀ cap g, p.grid_stress_cap = some cap → r.grid_stress_index = some g → g ≤ cap) →
      (evaluatePolicy r p).violations = [] ∧ (evaluatePolicy r p).throttle_applied = false) := by
  constructor
  · intro r p cap pw hec hpw hlt
    rcases hth : p.thermal_cap_w with _ | tcap <;>
      rcases hthr : r.thermal_headroom_w with _ | th <;>
      rcases hg : p.grid_stress_cap with _ | gcap <;>
      rcases hgr : r.grid_stress_index with _ | g <;>
      simp only [evaluatePolicy, hec, hpw, hth, hthr, hg, hgr, gt_iff_lt, if_pos hlt] <;>
      (try split_ifs) <;>
      exact ⟨by trivial, ⟨VType.energy_cap, pw, cap⟩, by simp, rfl⟩
  · intro r p h1 h2 h3
    rcases hec : p.energy_cap_w with _ | cap <;>
      rcases hpw : r.power_w with _ | pw <;>
      rcases hth : p.thermal_cap_w with _ | tcap <;>
      rcases hthr : r.thermal_headroom_w with _ | th <;>
      rcases hg : p.grid_stress_cap with _ | gcap <;>
      rcases hgr : r.grid_stress_index with _ | g <;>
      simp only [evaluatePolicy, hec, hpw, hth, hthr, hg, hgr, gt_iff_lt] <;>
      (try split_ifs) <;>
      first
        | exact ⟨by trivial, by trivial⟩
        | (exfalso; linarith [h1 _ _ hec hpw])
        | (exfalso; linarith [h2 _ _ hth hthr])
        | (exfalso; linarith [h3 _ _ hg hgr])

/-- Witness for C7: power 120 W against a 100 W cap throttles with an
energy_cap violation; a record with no relevant telemetry is within caps. -/
theorem evaluatePolicy_spec_witness :
    (({ energy_cap_w := some 100, thermal_cap_w := none, grid_stress_cap := none,
        throttle_factor := 1/2 } : Policy).energy_cap_w = some 100 ∧
     ({ TSV.empty with power_w := some 120 } : TSV).power_w = some 120 ∧
     (100 : ℚ) < 120 ∧
     (evaluatePolicy { TSV.empty with power_w := some 120 }
       { energy_cap_w := some 100, thermal_cap_w := none, grid_stress_cap := none,
         throttle_factor := 1/2 }).throttle_applied = true ∧
     ∃ v ∈ (evaluatePolicy { TSV.empty with power_w := some 120 }
       { energy_cap_w := some 100, thermal_cap_w := none, grid_stress_cap := none,
         throttle_factor := 1/2 }).violations, v.vtype = VType.energy_cap) ∧
    ((evaluatePolicy { TSV.empty with power_w := some 50 }
       { energy_cap_w := some 100, thermal_cap_w := none, grid_stress_cap := none,
         throttle_factor := 1/2 }).violations = [] ∧
     (evaluatePolicy { TSV.empty with power_w := some 50 }
       { energy_cap_w := some 100, thermal_cap_w := none, grid_stress_cap := none,
         throttle_factor := 1/2 }).throttle_applied = false) := by
  constructor
  · obtain ⟨ha, hb⟩ := evaluatePolicy_spec.1 { TSV.empty with power_w := some 120 }
      { energy_cap_w := some 100, thermal_cap_w := none, grid_stress_cap := none,
        throttle_factor := 1/2 } 100 120 rfl rfl (by norm_num)
    exact ⟨rfl, rfl, by norm_num, ha, hb⟩
  · refine evaluatePolicy_spec.2 _ _ ?_ ?_ ?_
    · intro cap pw hc hw
      cases hc
      cases hw
      norm_num
    · intro cap th hc
      cases hc
    · intro cap g hc
      cases hc

/-! ## Claim C8 -/

/-- Counterexample to C8 as stated: the "never below 50% of the original
energy" consequence fails for a negative original energy. With original
energy -1 J and factor 1, the throttled energy is -1 J, strictly below
half the original (-0.5 J). -/
theorem applyThrottle_negative_energy_cx :
    (⟨true, 1, false, []⟩ : EvalResult).throttle_factor = 1 ∧ (0 : ℚ) ≤ 1 ∧ (1 : ℚ) ≤ 1 ∧
    (applyThrottle { TSV.empty with energy_j := some (-1), work_units := some 1 }
      ⟨true, 1, false, []⟩).energy_j = some (-1) ∧
    (-1 : ℚ) < (1/2) * (-1) := by
  refine ⟨rfl, by norm_num, by norm_num, ?_, by norm_num⟩
  norm_num [applyThrottle, TSV.empty]

/-- C8 (amended): for a record with `work_units` and `energy_j` present and
an evaluation result with `throttle_applied` and factor `f`, `applyThrottle`
scales `work_units` by exactly `f` and `energy_j` by exactly `0.5 + 0.5f`;
consequently, for `f ≥ 0` and non-negative original energy, the throttled
energy is never below 50% of the original. -/
theorem applyThrottle_scaling (record : TSV) (er : EvalResult) (w e : ℚ)
    (hth : er.throttle_applied = true) (hw : record.work_units = some w)
    (he : record.energy_j = some e) :
    (applyThrottle record er).work_units = some (w * er.throttle_factor) ∧
    (applyThrottle record er).energy_j =
      some (e * (1/2 + er.throttle_factor * (1/2))) ∧
    (0 ≤ er.throttle_factor → 0 ≤ e →
      e * (1/2) ≤ e * (1/2 + er.throttle_factor * (1/2))) := by
  refine ⟨?_, ?_, fun hf h0e => by nlinarith [mul_nonneg h0e hf]⟩ <;>
    rcases hv : record.validated_work_units with _ | v <;>
    rcases hc : record.cpu_core_seconds with _ | c <;>
    rcases hgs : record.gpu_seconds with _ | g <;>
    simp only [applyThrottle, hth, Bool.not_true, Bool.false_eq_true, if_false, hw, he,
      hv, hc, hgs, gt_iff_lt] <;>
    split_ifs <;>
    rfl

/-- Witness for C8 (amended): work 3, energy 4, factor 1/2 gives work 3/2
and energy 3, which is at least half of 4. -/
theorem applyThrottle_scaling_witness :
    (⟨true, 1/2, false, []⟩ : EvalResult).throttle_applied = true ∧
    ({ TSV.empty with work_units := some 3, energy_j := some 4 } : TSV).work_units = some 3 ∧
    ({ TSV.empty with work_units := some 3, energy_j := some 4 } : TSV).energy_j = some 4 ∧
    (applyThrottle { TSV.empty with work_units := some 3, energy_j := some 4 }
      ⟨true, 1/2, false, []⟩).work_units = some (3 * (1/2)) ∧
    (applyThrottle { TSV.empty with work_units := some 3, energy_j := some 4 }
      ⟨true, 1/2, false, []⟩).energy_j = some (4 * (1/2 + (1/2) * (1/2))) ∧
    (4 : ℚ) * (1/2) ≤ 4 * (1/2 + (1/2) * (1/2)) := by
  obtain ⟨ha, hb, hc⟩ := applyThrottle_scaling
    { TSV.empty with work_units := some 3, energy_j := some 4 }
    ⟨true, 1/2, false, []⟩ 3 4 rfl rfl rfl
  exact ⟨rfl, rfl, rfl, ha, hb, hc (by norm_num) (by norm_num)⟩

/-! ## Claim C9 -/

/-- Counterexample to C9 as stated: the claim quantifies over every price,
but at price 0 the delta is 0, not negative, even with
enstPolicy (2) > enstBaseline (1). -/
theorem computeDeltaCostPerWork_zero_price_cx :
    (1 : ℚ) < 2 ∧
    computeDeltaCostPerWork (some 1) (some 2) 0 REFERENCE_WORK_UNITS = some 0 ∧
    ¬ ((0 : ℚ) < 0 ∨ (0 : ℚ) > 0) := by
  refine ⟨by norm_num, ?_, by norm_num⟩
  norm_num [computeDeltaCostPerWork, computeCostForWork, computeEnergyForWork,
    computeCostUsd, REFERENCE_WORK_UNITS, JOULES_PER_MWH]

/-- C9 (amended): `computeDeltaCostPerWork` (at the reference work quantity)
is negative whenever both ENSTs are positive, the policy ENST exceeds the
baseline ENST, and the price is positive; and it is null whenever either
side's ENST is non-positive or absent. -/
theorem computeDeltaCostPerWork_spec :
    (∀ b p price : ℚ, 0 < b → b < p → 0 < price →
      ∃ d, computeDeltaCostPerWork (some b) (some p) price REFERENCE_WORK_UNITS = some d ∧
        d < 0) ∧
    (∀ (b p : Option ℚ) (price : ℚ),
      (b = none ∨ (∃ x, b = some x ∧ x ≤ 0) ∨ p = none ∨ (∃ x, p = some x ∧ x ≤ 0)) →
      computeDeltaCostPerWork b p price REFERENCE_WORK_UNITS = none) := by
  constructor
  · intro b p price hb hbp hprice
    have hp : 0 < p := lt_trans hb hbp
    have hRb : (0 : ℚ) < REFERENCE_WORK_UNITS / b := by
      apply div_pos _ hb
      norm_num [REFERENCE_WORK_UNITS]
    have hRp : (0 : ℚ) < REFERENCE_WORK_UNITS / p := by
      apply div_pos _ hp
      norm_num [REFERENCE_WORK_UNITS]
    refine ⟨REFERENCE_WORK_UNITS / p / JOULES_PER_MWH * price -
      REFERENCE_WORK_UNITS / b / JOULES_PER_MWH * price, ?_, ?_⟩
    · simp [computeDeltaCostPerWork, computeCostForWork, computeEnergyForWork,
        computeCostUsd, hb.not_le, hp.not_le, hRb.not_le, hRp.not_le]
    · have hdiv : REFERENCE_WORK_UNITS / p < REFERENCE_WORK_UNITS / b := by
        apply div_lt_div_of_pos_left _ hb hbp
        norm_num [REFERENCE_WORK_UNITS]
      have hK : REFERENCE_WORK_UNITS / p / JOULES_PER_MWH <
          REFERENCE_WORK_UNITS / b / JOULES_PER_MWH := by
        apply div_lt_div_of_pos_right hdiv
        norm_num [JOULES_PER_MWH]
      have := mul_lt_mul_of_pos_right hK hprice
      linarith
  · intro b p price hside
    rcases hside with hb | ⟨x, hb, hx⟩ | hp | ⟨x, hp, hx⟩
    · simp [computeDeltaCostPerWork, computeCostForWork, computeEnergyForWork, hb]
    · simp only [computeDeltaCostPerWork, computeCostForWork, computeEnergyForWork, hb,
        if_pos hx]
    · rcases b with _ | y <;>
        simp only [computeDeltaCostPerWork, computeCostForWork, computeEnergyForWork, hp] <;>
        split_ifs <;> rfl
    · rcases b with _ | y <;>
        simp only [computeDeltaCostPerWork, computeCostForWork, computeEnergyForWork, hp,
          if_pos hx] <;>
        split_ifs <;> rfl

/-- Witness for C9 (amended): baseline ENST 1, policy ENST 2, price 1 gives
a strictly negative delta; a non-positive baseline gives null. -/
theorem computeDeltaCostPerWork_spec_witness :
    ((0 : ℚ) < 1 ∧ (1 : ℚ) < 2 ∧ (0 : ℚ) < 1 ∧
      ∃ d, computeDeltaCostPerWork (some 1) (some 2) 1 REFERENCE_WORK_UNITS = some d ∧
        d < 0) ∧
    computeDeltaCostPerWork (some 0) (some 2) 1 REFERENCE_WORK_UNITS = none := by
  constructor
  · exact ⟨by norm_num, by norm_num, by norm_num,
      computeDeltaCostPerWork_spec.1 1 2 1 (by norm_num) (by norm_num) (by norm_num)⟩
  · exact computeDeltaCostPerWork_spec.2 (some 0) (some 2) 1
      (Or.inr (Or.inl ⟨0, rfl, le_refl 0⟩))

/-! ## Claim C10 -/

/-- C10: every record yielded by `computeEnstStream` has
`validated_work_units` set to the freshly computed work units when the
input record's `validated_work_units` is null/undefined, and keeps the
input's value unchanged otherwise. -/
theorem computeEnstStream_validated_spec (mode : ReqMode) (gpuWeight : ℚ)
    (records : List TSV) (i : ℕ) (hi : i < records.length)
    (ho : i < (computeEnstStream mode gpuWeight records).length) :
    ((records.get ⟨i, hi⟩).validated_work_units = none →
      ((computeEnstStream mode gpuWeight records).get ⟨i, ho⟩).validated_work_units =
        some (computeWorkUnits (records.get ⟨i, hi⟩) mode gpuWeight).1) ∧
    (∀ v, (records.get ⟨i, hi⟩).validated_work_units = some v →
      ((computeEnstStream mode gpuWeight records).get ⟨i, ho⟩).validated_work_units =
        some v) := by
  have hget : (computeEnstStream mode gpuWeight records).get ⟨i, ho⟩ =
      processEnstRecord mode gpuWeight (records.get ⟨i, hi⟩) := by
    simp [computeEnstStream]
  rw [hget]
  constructor
  · intro hv
    simp only [processEnstRecord, hv]
    rfl
  · intro v hv
    simp only [processEnstRecord, hv]
    rfl

/-- Witness for C10: a two-record stream where the first record has no
validated_work_units (it is backfilled with the computed work units) and the
second has validated_work_units 9 (it is kept). -/
theorem computeEnstStream_validated_spec_witness :
    (([TSV.empty, { TSV.empty with validated_work_units := some 9 }].get
        ⟨0, by norm_num⟩).validated_work_units = none ∧
      ((computeEnstStream ReqMode.infra 1
        [TSV.empty, { TSV.empty with validated_work_units := some 9 }]).get
          ⟨0, by norm_num [computeEnstStream]⟩).validated_work_units =
        some (computeWorkUnits TSV.empty ReqMode.infra 1).1) ∧
    (([TSV.empty, { TSV.empty with validated_work_units := some 9 }].get
        ⟨1, by norm_num⟩).validated_work_units = some 9 ∧
      ((computeEnstStream ReqMode.infra 1
        [TSV.empty, { TSV.empty with validated_work_units := some 9 }]).get
          ⟨1, by norm_num [computeEnstStream]⟩).validated_work_units = some 9) := by
  constructor
  · exact ⟨rfl, (computeEnstStream_validated_spec ReqMode.infra 1 _ 0 (by norm_num)
      (by norm_num [computeEnstStream])).1 rfl⟩
  · exact ⟨rfl, (computeEnstStream_validated_spec ReqMode.infra 1 _ 1 (by norm_num)
      (by norm_num [computeEnstStream])).2 9 rfl⟩

end TsvEnst
